import Mathlib

/-!
Shallow embedding of src/LB35.go: a round-robin HTTP load balancer.
Pure data and control flow are translated directly; external effects
(dialing a TCP connection, parsing a URL, serving HTTP) are passed in
as explicit inputs so every definition stays executable.
-/

namespace LB35

/-- Modulus of the uint64 arithmetic used by the shared request counter:
atomic.AddUint64 wraps at 2^64. -/
def U64 : Nat := 2 ^ 64

/-- The parts of url.URL the program uses: scheme and host. -/
structure URLv where
  scheme : String
  host : String
deriving DecidableEq

/-- httputil.ReverseProxy as built once per backend by
NewSingleHostReverseProxy: an opaque forwarding handle bound to its target. -/
structure ReverseProxy where
  target : URLv
deriving DecidableEq

/-- The Backend struct of LB35.go (lines 41-45): URL, Alive flag,
ReverseProxy handle. -/
structure Backend where
  url : URLv
  alive : Bool
  reverseProxy : ReverseProxy
deriving DecidableEq

/-- Outcome of net.DialTimeout("tcp", u.Host, 2*time.Second): either an
error (timeout, refusal, DNS failure) or an established connection,
supplied as an input to the probe. -/
inductive DialOutcome where
  | err (msg : String)
  | conn (id : Nat)
deriving DecidableEq

/-- isAlive of LB35.go (lines 18-34): returns false when DialTimeout
reported an error, otherwise closes the connection and returns true. -/
def isAlive (outcome : DialOutcome) : Bool :=
  match outcome with
  | .err _ => false
  | .conn _ => true

/-- A liveness-transition log line of the health-check goroutine: the
revived line or the died line, each naming the target host. -/
inductive HealthLog where
  | revived (host : String)
  | died (host : String)
deriving DecidableEq

/-- One iteration of the health-check inner loop (lines 121-136) for one
node. probe gives the boolean that isAlive(node.URL) returns during this
sweep. Only when the observation differs from the stored Alive value does
the node get updated and a transition line get printed. -/
def checkNode (probe : URLv → Bool) (node : Backend) : Backend × Option HealthLog :=
  let alive := probe node.url
  if node.alive ≠ alive then
    ({ node with alive := alive },
     some (if alive then HealthLog.revived node.url.host else HealthLog.died node.url.host))
  else (node, none)

/-- One full sweep of the health-check goroutine over the pool (lines
119-141): every node is probed, in order, regardless of current liveness;
the updated pool and the emitted transition lines are returned. -/
def sweep (probe : URLv → Bool) (nodes : List Backend) : List Backend × List HealthLog :=
  match nodes with
  | [] => ([], [])
  | n :: rest =>
    let p := checkNode probe n
    let q := sweep probe rest
    (p.1 :: q.1, p.2.toList ++ q.2)

/-- Result of one run of the selection loop inside the r.Any handler:
the chosen node as (index, ticket) if any, the final requestCounter, and
the number of atomic.AddUint64 calls performed. -/
structure LoopOut where
  targetNode : Option (Nat × Nat)
  counter : Nat
  increments : Nat
deriving DecidableEq

/-- The selection loop of the handler (lines 159-178), with fuel the
remaining iterations of the for-loop (started at len(nodes)). Each
iteration reserves a fresh ticket current by an atomic increment wrapping
at 2^64, computes index := current % len(nodes), and selects nodes[index]
when it is alive. -/
def selectLoop (nodes : List Backend) : Nat → Nat → LoopOut
  | counter, 0 => ⟨none, counter, 0⟩
  | counter, fuel + 1 =>
    let current := (counter + 1) % U64
    let index := current % nodes.length
    match nodes.get? index with
    | some candidate =>
      if candidate.alive then ⟨some (index, current), current, 1⟩
      else
        let r := selectLoop nodes current fuel
        ⟨r.targetNode, r.counter, r.increments + 1⟩
    | none => ⟨none, current, 1⟩

/-- What the handler sends back: 204 for the favicon intercept, 502 with
the all-nodes-down message when targetNode stayed nil, or the forward to
the chosen backend (after logging ticket and target). -/
inductive HandlerOutcome where
  | noContent
  | badGateway
  | forwarded (index ticket : Nat)
deriving DecidableEq

/-- The selection-plus-response part of the r.Any handler (lines 157-189),
after the favicon guard: run the loop for len(nodes) iterations, answer
502 if no live node was found, otherwise forward to the chosen node.
Returns the outcome and the new requestCounter. -/
def dispatch (nodes : List Backend) (counter : Nat) : HandlerOutcome × Nat :=
  let r := selectLoop nodes counter nodes.length
  match r.targetNode with
  | some it => (HandlerOutcome.forwarded it.1 it.2, r.counter)
  | none => (HandlerOutcome.badGateway, r.counter)

/-- The shared mutable state the handler touches: the pool and the global
requestCounter. -/
structure ServerState where
  nodes : List Backend
  requestCounter : Nat
deriving DecidableEq

/-- The whole r.Any handler (lines 149-190) for one request on path:
favicon requests are aborted with 204 before any selection; otherwise the
dispatch runs against the current state. -/
def handle (path : String) (s : ServerState) : HandlerOutcome × ServerState :=
  if path = "/favicon.ico" then (HandlerOutcome.noContent, s)
  else
    let p := dispatch s.nodes s.requestCounter
    (p.1, { nodes := s.nodes, requestCounter := p.2 })

/-- k consecutive dispatch calls threading the shared counter; collects
the outcomes in order and the final counter. -/
def dispatchSeq (nodes : List Backend) (counter : Nat) : Nat → List HandlerOutcome × Nat
  | 0 => ([], counter)
  | k + 1 =>
    let p := dispatch nodes counter
    let q := dispatchSeq nodes p.2 k
    (p.1 :: q.1, q.2)

/-- The Config struct of LB35.go: port and backend address list. -/
structure Config where
  port : String
  backends : List String
deriving DecidableEq

/-- Pool construction in main (lines 79-116): parse each configured
address (parse models url.Parse, none being a parse error), skip a failed
entry with a printed warning, otherwise append a Backend with Alive true
and a proxy built once for the target. -/
def buildNodes (parse : String → Option URLv) (backends : List String) : List Backend :=
  match backends with
  | [] => []
  | ip :: rest =>
    match parse ip with
    | none => buildNodes parse rest
    | some u => { url := u, alive := true, reverseProxy := ⟨u⟩ } :: buildNodes parse rest

/-- How far main gets at startup: panicked is the panic(err) taken when
LoadConfig fails; running means the process reached the health goroutine,
the router and r.Run with the constructed pool. -/
inductive StartupResult where
  | panicked (msg : String)
  | running (nodes : List Backend) (port : String)
deriving DecidableEq

/-- main up to serving (lines 70-192): panic only when LoadConfig failed,
otherwise build the pool from the config and proceed to serving. There is
no emptiness check between pool construction and r.Run. -/
def mainStartup (parse : String → Option URLv) (loaded : Except String Config) :
    StartupResult :=
  match loaded with
  | .error e => .panicked e
  | .ok cfg => .running (buildNodes parse cfg.backends) cfg.port

/-- Concrete hosts used as witnesses. -/
def urlA : URLv := ⟨"http", "a.internal:80"⟩

def urlB : URLv := ⟨"http", "b.internal:80"⟩

def urlC : URLv := ⟨"http", "c.internal:80"⟩

/-- Build a backend the way pool construction does, with a chosen flag. -/
def mkNode (u : URLv) (a : Bool) : Backend := ⟨u, a, ⟨u⟩⟩

/-- A three-node pool with every backend alive. -/
def pool3 : List Backend := [mkNode urlA true, mkNode urlB true, mkNode urlC true]

/-- A three-node pool with every backend dead. -/
def pool3dead : List Backend := [mkNode urlA false, mkNode urlB false, mkNode urlC false]

/-- A three-node pool whose only live backend sits at index 2. -/
def pool3last : List Backend := [mkNode urlA false, mkNode urlB false, mkNode urlC true]

/-- A three-node pool whose only live backend sits at index 1. -/
def pool3mid : List Backend := [mkNode urlA false, mkNode urlB true, mkNode urlC false]

/-- A parse function under which every address parses. -/
def parseAll (s : String) : Option URLv := some ⟨"http", s⟩

/-! ## General lemmas about the selection loop -/

theorem U64_pos : 0 < U64 := by decide

/-- When every backend is alive, one iteration of the loop suffices: the
candidate at index (c+1) % 2^64 % N is selected with ticket (c+1) % 2^64. -/
theorem selectLoop_all_alive (nodes : List Backend) (c : Nat)
    (hlen : 1 ≤ nodes.length) (halive : ∀ b ∈ nodes, b.alive = true)
    (fuel : Nat) (hfuel : 1 ≤ fuel) :
    selectLoop nodes c fuel =
      ⟨some (((c + 1) % U64) % nodes.length, (c + 1) % U64), (c + 1) % U64, 1⟩ := by
  obtain ⟨n, rfl⟩ : ∃ n, fuel = n + 1 := ⟨fuel - 1, by omega⟩
  have hidx : ((c + 1) % U64) % nodes.length < nodes.length := Nat.mod_lt _ hlen
  have hget : nodes.get? (((c + 1) % U64) % nodes.length) =
      some (nodes.get ⟨((c + 1) % U64) % nodes.length, hidx⟩) := List.get?_eq_get hidx
  have hal : (nodes.get ⟨((c + 1) % U64) % nodes.length, hidx⟩).alive = true :=
    halive _ (List.get_mem nodes _ hidx)
  simp only [selectLoop, hget, hal, if_true]

/-- When every backend is dead, the loop exhausts its fuel, selecting no
node and performing one increment per iteration. -/
theorem selectLoop_all_dead (nodes : List Backend)
    (hlen : 1 ≤ nodes.length) (hdead : ∀ b ∈ nodes, b.alive = false) :
    ∀ fuel c, (selectLoop nodes c fuel).targetNode = none ∧
      (selectLoop nodes c fuel).increments = fuel := by
  intro fuel
  induction fuel with
  | zero => intro c; exact ⟨rfl, rfl⟩
  | succ n ih =>
    intro c
    have hidx : ((c + 1) % U64) % nodes.length < nodes.length := Nat.mod_lt _ hlen
    have hget : nodes.get? (((c + 1) % U64) % nodes.length) =
        some (nodes.get ⟨((c + 1) % U64) % nodes.length, hidx⟩) := List.get?_eq_get hidx
    have hal : (nodes.get ⟨((c + 1) % U64) % nodes.length, hidx⟩).alive = false :=
      hdead _ (List.get_mem nodes _ hidx)
    obtain ⟨h1, h2⟩ := ih ((c + 1) % U64)
    simp only [selectLoop, hget, hal, if_false, Bool.false_eq_true]
    exact ⟨h1, by omega⟩

/-- C1: with all N backends alive (N ≥ 1), consecutive dispatch calls each
reserve the next ticket by incrementing the shared uint64 counter and
select the backend at index ticket mod N; starting from counter c the
i-th call (i = 0, 1, ...) gets ticket (c+i+1) mod 2^64 and index
ticket mod N, the strict rotating order modulo N. -/
theorem dispatch_rotation_all_alive (nodes : List Backend) (c : Nat)
    (hlen : 1 ≤ nodes.length) (halive : ∀ b ∈ nodes, b.alive = true) :
    ∀ k, (dispatchSeq nodes c k).1 =
      (List.range k).map
        (fun i => HandlerOutcome.forwarded (((c + i + 1) % U64) % nodes.length)
          ((c + i + 1) % U64)) := by
  intro k
  induction k generalizing c with
  | zero => rfl
  | succ k ih =>
    have hloop : selectLoop nodes c nodes.length =
        ⟨some (((c + 1) % U64) % nodes.length, (c + 1) % U64), (c + 1) % U64, 1⟩ :=
      selectLoop_all_alive nodes c hlen halive nodes.length hlen
    have hdisp : dispatch nodes c =
        (HandlerOutcome.forwarded (((c + 1) % U64) % nodes.length) ((c + 1) % U64),
          (c + 1) % U64) := by
      simp only [dispatch, hloop]
    have htail := ih ((c + 1) % U64)
    simp only [dispatchSeq, hdisp, htail, List.range_succ_eq_map, List.map_cons,
      List.map_map]
    rw [List.cons.injEq]
    refine ⟨by norm_num, ?_⟩
    apply List.map_congr_left
    intro i _
    have h1 : ((c + 1) % U64 + i + 1) % U64 = (c + (i + 1) + 1) % U64 := by
      have h2 : ((c + 1) % U64 + (i + 1)) % U64 = (c + 1 + (i + 1)) % U64 :=
        Nat.mod_add_mod (c + 1) U64 (i + 1)
      have h3 : (c + 1) % U64 + i + 1 = (c + 1) % U64 + (i + 1) := by omega
      have h4 : c + 1 + (i + 1) = c + (i + 1) + 1 := by omega
      rw [h3, h2, h4]
    simp only [Function.comp_apply, Nat.succ_eq_add_one]
    rw [h1]

/-- C1 witness: three alive backends, counter 0, four calls: tickets
1, 2, 3, 4 give indices 1, 2, 0, 1. -/
theorem dispatch_rotation_all_alive_witness :
    (dispatchSeq pool3 0 4).1 =
      [HandlerOutcome.forwarded 1 1, HandlerOutcome.forwarded 2 2,
       HandlerOutcome.forwarded 0 3, HandlerOutcome.forwarded 1 4] := by
  have h := dispatch_rotation_all_alive pool3 0 (by decide) (by decide) 4
  rw [h]; decide

/-- C2: with N ≥ 1 backends all dead, the dispatch terminates after
exactly N selection attempts (hence at most N), selects no backend, and
answers the 502 pool-exhaustion response. -/
theorem dispatch_pool_exhaustion (nodes : List Backend) (c : Nat)
    (hlen : 1 ≤ nodes.length) (hdead : ∀ b ∈ nodes, b.alive = false) :
    (selectLoop nodes c nodes.length).targetNode = none ∧
    (selectLoop nodes c nodes.length).increments = nodes.length ∧
    (dispatch nodes c).1 = HandlerOutcome.badGateway := by
  obtain ⟨h1, h2⟩ := selectLoop_all_dead nodes hlen hdead nodes.length c
  refine ⟨h1, h2, ?_⟩
  simp only [dispatch, h1]

/-- C2 witness: three dead backends, counter 0. -/
theorem dispatch_pool_exhaustion_witness :
    (selectLoop pool3dead 0 pool3dead.length).targetNode = none ∧
    (selectLoop pool3dead 0 pool3dead.length).increments = pool3dead.length ∧
    (dispatch pool3dead 0).1 = HandlerOutcome.badGateway :=
  dispatch_pool_exhaustion pool3dead 0 (by decide) (by decide)

/-- Closed form of one health-check iteration: no write and no log when
the observation matches the stored flag, update plus transition line
otherwise. -/
theorem checkNode_eq (probe : URLv → Bool) (node : Backend) :
    checkNode probe node =
      if probe node.url = node.alive then (node, none)
      else ({ node with alive := probe node.url },
        some (if probe node.url then HealthLog.revived node.url.host
          else HealthLog.died node.url.host)) := by
  by_cases h : probe node.url = node.alive
  · simp [checkNode, h]
  · simp only [checkNode, ne_eq, if_neg h]
    rw [if_pos]
    intro hc
    exact h hc.symm

/-- A sweep is exactly the per-node check mapped over the pool, with the
emitted lines collected in pool order. -/
theorem sweep_eq_map_filterMap (probe : URLv → Bool) (nodes : List Backend) :
    sweep probe nodes =
      (nodes.map (fun n => (checkNode probe n).1),
       nodes.filterMap (fun n => (checkNode probe n).2)) := by
  induction nodes with
  | nil => rfl
  | cons n rest ih =>
    simp only [sweep, ih, List.map_cons, List.filterMap_cons]
    cases hp : (checkNode probe n).2 <;> simp [hp, Option.toList]

/-- C3: in every sweep each backend is checked in place, and the stored
flag is rewritten and a transition line naming the target emitted exactly
when the observed value differs from the stored one; an unchanged
observation leaves the node untouched and logs nothing. -/
theorem health_transition_iff (probe : URLv → Bool) (nodes : List Backend)
    (node : Backend) :
    sweep probe nodes =
      (nodes.map (fun n => (checkNode probe n).1),
       nodes.filterMap (fun n => (checkNode probe n).2)) ∧
    (checkNode probe node).1.alive = probe node.url ∧
    ((checkNode probe node).2 = none ↔ probe node.url = node.alive) ∧
    ((checkNode probe node).1 = node ↔ probe node.url = node.alive) ∧
    ((checkNode probe node).2 =
        some (if probe node.url then HealthLog.revived node.url.host
          else HealthLog.died node.url.host) ↔
      ¬ probe node.url = node.alive) := by
  refine ⟨sweep_eq_map_filterMap probe nodes, ?_, ?_, ?_, ?_⟩ <;>
    · rw [checkNode_eq]
      by_cases h : probe node.url = node.alive <;>
        cases node <;> simp_all

/-- C7: the probe is a total boolean classifier of the dial outcome:
any dial error yields false, an established connection yields true, and
probe results never shorten a sweep — every backend of the pool is still
processed. -/
theorem isAlive_total_classification (msg : String) (id : Nat)
    (probe : URLv → Bool) (nodes : List Backend) :
    isAlive (DialOutcome.err msg) = false ∧
    isAlive (DialOutcome.conn id) = true ∧
    ((sweep probe nodes).1).length = nodes.length := by
  refine ⟨rfl, rfl, ?_⟩
  rw [sweep_eq_map_filterMap]
  simp

/-- C9: a dispatch call never writes the pool: the handler returns the
node list unchanged (hence every backend keeps its Alive flag, URL and
ReverseProxy), whatever the path and state; only the counter may move. -/
theorem dispatch_frame (path : String) (s : ServerState) :
    ((handle path s).2).nodes = s.nodes ∧
    (∀ i, (((handle path s).2).nodes.get? i) = s.nodes.get? i) := by
  have h : ((handle path s).2).nodes = s.nodes := by
    unfold handle
    by_cases h : path = "/favicon.ico" <;> simp [h]
  exact ⟨h, fun i => by rw [h]⟩

/-- C10: with an empty pool the handler still terminates and answers the
502 response; the loop body is never entered, so no modulo by the pool
size is computed, the counter is not incremented and keeps its value. -/
theorem dispatch_empty_pool (c : Nat) :
    dispatch ([] : List Backend) c = (HandlerOutcome.badGateway, c) ∧
    (selectLoop ([] : List Backend) c (List.length ([] : List Backend))).increments
      = 0 :=
  ⟨rfl, rfl⟩

/-- C4 counterexample: with a successfully loaded config whose backend
list is empty, pool construction yields zero backends and main proceeds
to serving with the empty pool instead of aborting launch. -/
theorem startup_empty_pool_counterexample :
    mainStartup parseAll (Except.ok ⟨":8080", []⟩) =
      StartupResult.running [] ":8080" := rfl

/-- C4 amended: the only fatal startup path is a config-load failure;
once the config loads, main always proceeds to serving with whatever
pool construction produced — even when filtering left zero backends (no
emptiness check exists). -/
theorem startup_never_aborts (parse : String → Option URLv) (cfg : Config) :
    mainStartup parse (Except.ok cfg) =
      StartupResult.running (buildNodes parse cfg.backends) cfg.port := rfl

/-- The loop performs at most one increment per unit of fuel, and at
least one as soon as it runs at all. -/
theorem selectLoop_increments_bounds (nodes : List Backend) :
    ∀ fuel c, (selectLoop nodes c fuel).increments ≤ fuel ∧
      (1 ≤ fuel → 1 ≤ (selectLoop nodes c fuel).increments) := by
  intro fuel
  induction fuel with
  | zero => intro c; exact ⟨Nat.le_refl 0, by omega⟩
  | succ n ih =>
    intro c
    rcases hget : nodes.get? (((c + 1) % U64) % nodes.length) with _ | cand
    · simp only [selectLoop, hget]
      exact ⟨by omega, by omega⟩
    · by_cases hal : cand.alive = true
      · simp only [selectLoop, hget, hal, if_true]
        exact ⟨by omega, by omega⟩
      · simp only [selectLoop, hget, hal, if_false, Bool.false_eq_true]
        obtain ⟨h1, _⟩ := ih ((c + 1) % U64)
        exact ⟨by omega, by omega⟩

/-- Counter evolution and ticket shape: starting below 2^64, the final
counter is the start advanced by one per increment modulo 2^64, and a
selected node carries the final counter as its ticket, its index being
ticket mod pool size. -/
theorem selectLoop_counter_ticket (nodes : List Backend) :
    ∀ fuel c, c < U64 →
      (selectLoop nodes c fuel).counter =
        (c + (selectLoop nodes c fuel).increments) % U64 ∧
      (∀ j t, (selectLoop nodes c fuel).targetNode = some (j, t) →
        t = (selectLoop nodes c fuel).counter ∧ j = t % nodes.length) := by
  intro fuel
  induction fuel with
  | zero =>
    intro c hc
    refine ⟨?_, ?_⟩
    · show c = (c + 0) % U64
      rw [Nat.add_zero, Nat.mod_eq_of_lt hc]
    · intro j t h
      exact absurd h (by simp [selectLoop])
  | succ n ih =>
    intro c hc
    rcases hget : nodes.get? (((c + 1) % U64) % nodes.length) with _ | cand
    · simp only [selectLoop, hget]
      exact ⟨trivial, by intro j t h; exact absurd h (by simp)⟩
    · by_cases hal : cand.alive = true
      · simp only [selectLoop, hget, hal, if_true]
        refine ⟨trivial, ?_⟩
        intro j t h
        rw [Option.some.injEq, Prod.mk.injEq] at h
        obtain ⟨rfl, rfl⟩ := h
        exact ⟨rfl, rfl⟩
      · have hcur : (c + 1) % U64 < U64 := Nat.mod_lt _ U64_pos
        obtain ⟨ihc, iht⟩ := ih ((c + 1) % U64) hcur
        simp only [selectLoop, hget, hal, if_false, Bool.false_eq_true]
        refine ⟨?_, ?_⟩
        · rw [ihc]
          have h2 := Nat.mod_add_mod (c + 1) U64
            (selectLoop nodes ((c + 1) % U64) n).increments
          rw [h2]
          congr 1
          omega
        · intro j t h
          obtain ⟨ht, hj⟩ := iht j t h
          exact ⟨ht, hj⟩

/-- If among the next fuel tickets (drawn without uint64 wraparound) some
ticket lands on index j, the sole live index, then the loop selects j. -/
theorem selectLoop_unique_alive (nodes : List Backend) (j : Nat)
    (hj : j < nodes.length)
    (halive : (nodes.get ⟨j, hj⟩).alive = true)
    (hdead : ∀ i (h : i < nodes.length), i ≠ j → (nodes.get ⟨i, h⟩).alive = false) :
    ∀ fuel c, c + fuel < U64 →
      (∃ i, 1 ≤ i ∧ i ≤ fuel ∧ (c + i) % nodes.length = j) →
      ∃ t, (selectLoop nodes c fuel).targetNode = some (j, t) := by
  have hlen : 0 < nodes.length := Nat.lt_of_le_of_lt (Nat.zero_le j) hj
  intro fuel
  induction fuel with
  | zero =>
    intro c _ hex
    obtain ⟨i, h1, h2, _⟩ := hex
    omega
  | succ n ih =>
    intro c hcw hex
    obtain ⟨i, h1, h2, h3⟩ := hex
    have hcur : (c + 1) % U64 = c + 1 := Nat.mod_eq_of_lt (by omega)
    have hidx : (c + 1) % nodes.length < nodes.length := Nat.mod_lt _ hlen
    have hget : nodes.get? (((c + 1) % U64) % nodes.length) =
        some (nodes.get ⟨(c + 1) % nodes.length, hidx⟩) := by
      rw [hcur]
      exact List.get?_eq_get hidx
    by_cases hidxj : (c + 1) % nodes.length = j
    · have hgj : nodes.get ⟨(c + 1) % nodes.length, hidx⟩ = nodes.get ⟨j, hj⟩ := by
        congr 1
        exact Fin.ext hidxj
      have hal : (nodes.get ⟨(c + 1) % nodes.length, hidx⟩).alive = true := by
        rw [hgj]; exact halive
      refine ⟨(c + 1) % U64, ?_⟩
      simp only [selectLoop, hget, hal, if_true]
      rw [hcur, hidxj]
    · have hal : (nodes.get ⟨(c + 1) % nodes.length, hidx⟩).alive = false :=
        hdead _ hidx hidxj
      have hi1 : i ≠ 1 := by
        intro h
        rw [h] at h3
        exact hidxj h3
      obtain ⟨t, ht⟩ := ih ((c + 1) % U64) (by rw [hcur]; omega)
        ⟨i - 1, by omega, by omega, by rw [hcur]; rw [show c + 1 + (i - 1) = c + i by omega]; exact h3⟩
      refine ⟨t, ?_⟩
      simp only [selectLoop, hget, hal, if_false, Bool.false_eq_true]
      exact ht

/-- C6: during one dispatch call every retry after a dead candidate
reserves a fresh ticket by its own increment of the shared counter: with
N ≥ 1 nodes and counter c < 2^64, the call performs between 1 and N
increments, the counter ends at (c + increments) mod 2^64 — one full
increment per attempt, not an index advanced in place — and a selected
node's ticket is the value produced by the increment of its own attempt,
its index being that ticket mod N. -/
theorem dispatch_fresh_ticket_each_retry (nodes : List Backend) (c : Nat)
    (hlen : 1 ≤ nodes.length) (hc : c < U64) :
    1 ≤ (selectLoop nodes c nodes.length).increments ∧
    (selectLoop nodes c nodes.length).increments ≤ nodes.length ∧
    (selectLoop nodes c nodes.length).counter =
      (c + (selectLoop nodes c nodes.length).increments) % U64 ∧
    (∀ j t, (selectLoop nodes c nodes.length).targetNode = some (j, t) →
      t = (c + (selectLoop nodes c nodes.length).increments) % U64 ∧
      j = t % nodes.length) := by
  obtain ⟨hle, hone⟩ := selectLoop_increments_bounds nodes nodes.length c
  obtain ⟨hcnt, htick⟩ := selectLoop_counter_ticket nodes nodes.length c hc
  refine ⟨hone hlen, hle, hcnt, ?_⟩
  intro j t h
  obtain ⟨ht, hj⟩ := htick j t h
  exact ⟨by rw [ht, hcnt], hj⟩

/-- C6 witness: three alive backends, counter 0. -/
theorem dispatch_fresh_ticket_each_retry_witness :
    1 ≤ (selectLoop pool3 0 pool3.length).increments ∧
    (selectLoop pool3 0 pool3.length).increments ≤ pool3.length ∧
    (selectLoop pool3 0 pool3.length).counter =
      (0 + (selectLoop pool3 0 pool3.length).increments) % U64 ∧
    (∀ j t, (selectLoop pool3 0 pool3.length).targetNode = some (j, t) →
      t = (0 + (selectLoop pool3 0 pool3.length).increments) % U64 ∧
      j = t % pool3.length) :=
  dispatch_fresh_ticket_each_retry pool3 0 (by decide) (by decide)

/-- C5 counterexample: a pool of three whose only live backend sits at
index 2, with starting counter 2^64 - 2. The three tickets of the call
wrap at 2^64 and land on indices 0, 0, 1 modulo 3 (2^64 is not a
multiple of 3), so the live backend is never examined and the call
answers 502 instead of selecting it. -/
theorem dispatch_unique_alive_wrap_counterexample :
    (dispatch pool3last (U64 - 2)).1 = HandlerOutcome.badGateway := by decide

/-- C5 amended: with exactly one live backend, at index j of N ≥ 1, a
dispatch call whose starting counter does not make the uint64 counter
wrap during the call (c + N < 2^64) selects that backend, in at most N
selection attempts. (At a wraparound the N drawn tickets can miss index
j, as the counterexample shows.) -/
theorem dispatch_unique_alive_no_wrap (nodes : List Backend) (c j : Nat)
    (hj : j < nodes.length)
    (halive : (nodes.get ⟨j, hj⟩).alive = true)
    (hdead : ∀ i (h : i < nodes.length), i ≠ j → (nodes.get ⟨i, h⟩).alive = false)
    (hnw : c + nodes.length < U64) :
    (∃ t, (dispatch nodes c).1 = HandlerOutcome.forwarded j t) ∧
    (selectLoop nodes c nodes.length).increments ≤ nodes.length := by
  have hlen : 0 < nodes.length := Nat.lt_of_le_of_lt (Nat.zero_le j) hj
  have hq := Nat.div_add_mod (c + 1) nodes.length
  have hr : (c + 1) % nodes.length < nodes.length := Nat.mod_lt _ hlen
  have hex : ∃ i, 1 ≤ i ∧ i ≤ nodes.length ∧ (c + i) % nodes.length = j := by
    by_cases hjr : (c + 1) % nodes.length ≤ j
    · refine ⟨j - (c + 1) % nodes.length + 1, by omega, by omega, ?_⟩
      have h5 : c + (j - (c + 1) % nodes.length + 1) =
          nodes.length * ((c + 1) / nodes.length) + j := by omega
      rw [h5, Nat.mul_add_mod, Nat.mod_eq_of_lt hj]
    · refine ⟨nodes.length + j - (c + 1) % nodes.length + 1, by omega, by omega, ?_⟩
      have hmul : nodes.length * ((c + 1) / nodes.length + 1) =
          nodes.length * ((c + 1) / nodes.length) + nodes.length := by ring
      have h5 : c + (nodes.length + j - (c + 1) % nodes.length + 1) =
          nodes.length * ((c + 1) / nodes.length + 1) + j := by omega
      rw [h5, Nat.mul_add_mod, Nat.mod_eq_of_lt hj]
  obtain ⟨t, ht⟩ :=
    selectLoop_unique_alive nodes j hj halive hdead nodes.length c hnw hex
  refine ⟨⟨t, ?_⟩, (selectLoop_increments_bounds nodes nodes.length c).1⟩
  simp only [dispatch, ht]

/-- C5 amended witness: live backend at index 1 of three, counter 5: the
first ticket (6, index 0) hits a dead node, the second (7, index 1) the
live one. -/
theorem dispatch_unique_alive_no_wrap_witness :
    (∃ t, (dispatch pool3mid 5).1 = HandlerOutcome.forwarded 1 t) ∧
    (selectLoop pool3mid 5 pool3mid.length).increments ≤ pool3mid.length :=
  dispatch_unique_alive_no_wrap pool3mid 5 1 (by decide) (by decide) (by decide)
    (by decide)

end LB35
